import Mathlib

/-!
Verification of the `cleu` mailbox browser (`cmd/read.go`) against its
natural-language specification.

The Go source is shallowly embedded below:
* machine integers (`uint32`) are modelled as `Nat` with explicit `% U32`
  wraparound where the Go code performs unsigned arithmetic;
* the bubbletea `Update` event loop is modelled as a pure step function
  `update : App → Msg → App × Cmd`, where `Cmd` records which asynchronous
  task (if any) the step issues;
* external collaborators (the IMAP client, the Go standard-library MIME
  parser, the bubbles list widget) are modelled as oracles/abstract inputs,
  since their code is not part of this repository.
-/

namespace Cleu

/-- The modulus `2^32` of Go's `uint32` arithmetic. -/
def U32 : Nat := 4294967296

/-- The `Email` struct of `cmd/read.go` (fields `From`/`To` are renamed
`fromAddr`/`toAddr` because `from`/`to` are Lean tokens; `Date` is modelled
as a `Nat` timestamp). -/
structure Email where
  uid : Nat := 0
  subject : String := ""
  fromAddr : String := ""
  toAddr : String := ""
  date : Nat := 0
  body : String := ""
  htmlBody : String := ""
  textBody : String := ""
  contentType : String := ""
  seen : Bool := false
  deriving DecidableEq, Repr

/-! ## Pagination range computation (`fetchEmails`, read.go lines 607–697)

Go:
```
end := totalMessages - uint32((page-1)*perPage)
start := end - uint32(perPage) + 1
if start < 1 { start = 1 }
if end > totalMessages { end = totalMessages }
```
All four quantities are `uint32`, so every subtraction wraps modulo `2^32`.
`totalMessages` is the message count reported by the server (< 2^32). -/

/-- The `(start, end)` pair computed by `fetchEmails` for a given page,
with Go `uint32` wraparound made explicit. -/
def fetchEmailsRange (totalMessages page perPage : Nat) : Nat × Nat :=
  let e0 : Nat := (totalMessages + U32 - ((page - 1) * perPage) % U32) % U32
  let s0 : Nat := (e0 + U32 - perPage % U32 + 1) % U32
  let s1 : Nat := if s0 < 1 then 1 else s0
  let e1 : Nat := if e0 > totalMessages then totalMessages else e0
  (s1, e1)

/-- Modelled from the spec: "page N maps to the range
`[total - N*size + 1, total - (N-1)*size]` clamped to `[1, total]`".
This is the specification-side range, for comparison with
`fetchEmailsRange` (which embeds the source). -/
def specPageRange (total n size : Nat) : Nat × Nat :=
  (max 1 (total - n * size + 1), min total (total - (n - 1) * size))

/-! ## MIME decoding (`parseEmailBody`, read.go lines 732–787)

`mail.ReadMessage`, `mime.ParseMediaType` and `multipart.Reader` are Go
standard-library collaborators; their outputs are taken as abstract inputs:
`mediaTypeResult` is the result of `mime.ParseMediaType` on the top-level
`Content-Type` header (`none` = parse error, triggering the `"text/plain"`
fallback), `parts` is the list of successfully read multipart parts (each
with its own already-parsed media type), and `whole` is the whole decoded
body for the non-multipart branch. -/

/-- One multipart part: its declared (parsed) media type and its body. -/
structure MimePart where
  mediaType : String
  body : String
  deriving DecidableEq, Repr

/-- Go's `strings.HasPrefix`, character by character. -/
def hasPrefixChars : List Char → List Char → Bool
  | _, [] => true
  | [], _ :: _ => false
  | c :: cs, d :: ds => c == d && hasPrefixChars cs ds

/-- Go's `strings.HasPrefix(s, pre)`. -/
def goHasPrefix (s pre : String) : Bool := hasPrefixChars s.data pre.data

/-- The `switch` in the multipart loop of `parseEmailBody`: a part whose
media type starts with `text/html` overwrites `HTMLBody`, otherwise one
starting with `text/plain` overwrites `TextBody`; anything else is skipped. -/
def classifyPart (acc : Email) (p : MimePart) : Email :=
  if goHasPrefix p.mediaType "text/html" then { acc with htmlBody := p.body }
  else if goHasPrefix p.mediaType "text/plain" then { acc with textBody := p.body }
  else acc

/-- A part lands in the HTML slot iff its type starts with `text/html`. -/
def partKindHtml (p : MimePart) : Bool :=
  goHasPrefix p.mediaType "text/html"

/-- A part lands in the plain-text slot iff it is not an HTML part and its
type starts with `text/plain` (the Go `switch` checks the cases in order). -/
def partKindPlain (p : MimePart) : Bool :=
  !goHasPrefix p.mediaType "text/html" && goHasPrefix p.mediaType "text/plain"

/-- The body of the last part of a list satisfying `pred`, if any. -/
def lastBodyMatching (pred : MimePart → Bool) : List MimePart → Option String
  | [] => none
  | p :: ps =>
    match lastBodyMatching pred ps with
    | some b => some b
    | none => if pred p then some p.body else none

/-- The merge policy at the end of `parseEmailBody`:
`Body := TextBody` if non-empty, else `HTMLBody` if non-empty, else left `""`. -/
def mergeBody (e : Email) : Email :=
  if e.textBody ≠ "" then { e with body := e.textBody }
  else if e.htmlBody ≠ "" then { e with body := e.htmlBody }
  else e

/-- The function `parseEmailBody` (read.go 732–787) after `mail.ReadMessage` succeeded. -/
def parseEmailBody (mediaTypeResult : Option String) (parts : List MimePart)
    (whole : String) : Email :=
  let mediaType := mediaTypeResult.getD "text/plain"
  let e : Email := { contentType := mediaType }
  let e :=
    if goHasPrefix mediaType "multipart/" then parts.foldl classifyPart e
    else if goHasPrefix mediaType "text/html" then { e with htmlBody := whole }
    else { e with textBody := whole }
  mergeBody e

/-- The abstract outcome of structure-parsing a raw message blob:
`unparseable` models `mail.ReadMessage` (or the body read) failing, in which
case `parseEmailBody` returns an error; otherwise the parsed pieces. -/
inductive RawMessage
  | unparseable
  | parsed (mediaTypeResult : Option String) (parts : List MimePart) (whole : String)
  deriving DecidableEq

/-- The function `parseEmailBody` including its error channel. -/
def parseEmailBodyFull : RawMessage → Except Unit Email
  | RawMessage.unparseable => Except.error ()
  | RawMessage.parsed mt parts whole => Except.ok (parseEmailBody mt parts whole)

/-- The decode step of `fetchEmailBodyParsed` (read.go 716–725): on a decode
error the raw bytes become the body with content type `text/plain`, and the
function returns success; on success the parsed email is returned.
`raw` is the raw blob read from the wire and `m` its structure-parse outcome. -/
def fetchEmailBodyParsedCore (raw : String) (m : RawMessage) : Except String Email :=
  match parseEmailBodyFull m with
  | Except.error _ => Except.ok { body := raw, contentType := "text/plain" }
  | Except.ok e => Except.ok e

/-! ## Trash/delete pipeline (`moveEmailToTrash`, read.go 551–590)

The IMAP client is an external collaborator; it is modelled as an oracle
giving, for each operation and argument, `none` for success or
`some errText` for failure (the session is assumed stable across the calls
of one `moveEmailToTrash` run). -/

/-- Oracle for the IMAP operations used by `moveEmailToTrash`. -/
structure ImapClient where
  selectErr : String → Option String
  uidMoveErr : Nat → String → Option String
  uidStoreErr : Nat → Option String
  expungeErr : Option String

/-- The fixed candidate list of read.go line 555, in source order. -/
def trashFolders : List String :=
  ["Trash", "INBOX.Trash", "Deleted Messages", "INBOX.Deleted Messages"]

/-- One move attempt succeeds for folder `f`: selecting `f` (the existence
check) succeeds, re-selecting `INBOX` succeeds, and the uid move succeeds. -/
def moveAttemptOk (c : ImapClient) (uid : Nat) (f : String) : Bool :=
  (c.selectErr f).isNone && (c.selectErr "INBOX").isNone &&
    (c.uidMoveErr uid f).isNone

/-- The candidate loop of `moveEmailToTrash` (read.go 557–570): each failure
(`Select` of the folder, re-`Select` of INBOX, or `UidMove`) falls through to
the next candidate; the first successful move returns its folder. -/
def tryMoveToFolders (c : ImapClient) (uid : Nat) : List String → Option String
  | [] => none
  | f :: rest =>
    match c.selectErr f with
    | some _ => tryMoveToFolders c uid rest
    | none =>
      match c.selectErr "INBOX" with
      | some _ => tryMoveToFolders c uid rest
      | none =>
        match c.uidMoveErr uid f with
        | none => some f
        | some _ => tryMoveToFolders c uid rest

/-- The fallback after the loop (read.go 572–589): re-select INBOX, set the
`\Deleted` flag by uid, expunge; the first failure aborts with its message. -/
def fallbackFlagExpunge (c : ImapClient) (uid : Nat) : Bool × String :=
  match c.selectErr "INBOX" with
  | some e => (false, "Failed to select INBOX: " ++ e)
  | none =>
    match c.uidStoreErr uid with
    | some e => (false, "Failed to mark email as deleted: " ++ e)
    | none =>
      match c.expungeErr with
      | some e => (false, "Failed to expunge: " ++ e)
      | none => (true, "Email deleted permanently")

/-- The function `moveEmailToTrash` (read.go 551–590). -/
def moveEmailToTrash (c : ImapClient) (uid : Nat) : Bool × String :=
  match tryMoveToFolders c uid trashFolders with
  | some f => (true, "Email moved to " ++ f)
  | none => fallbackFlagExpunge c uid

/-! ## The view state machine (`App.Update`, read.go 213–409)

The `App` struct is embedded with the fields the event loop reads or writes;
the network/UI handles (`client`, `list`, `viewport`, the credential
strings) are omitted, except that the bubbles list's cursor is kept as
`listIndex` and its item collection is derived (`itemsCount`): every
mutation of `emails`/`hasMore` in the Go code is immediately followed by
`updateEmailList()`, so the widget's items are always the current emails
plus, when `hasMore`, one trailing `LoadMoreItem` sentinel. -/

/-- The `appState` enum of read.go 106–112. -/
inductive AppState
  | listView
  | emailView
  | deleteConfirmView
  deriving DecidableEq, Repr

/-- The asynchronous command returned by one `Update` step. `ui` stands for
any command produced by the embedded bubbles list/viewport widgets (or `nil`)
when control falls through to `a.list.Update` / `a.viewport.Update`;
`tick` is the delayed `clearSuccessMsg` timer; `quit` is `tea.Quit`. -/
inductive Cmd
  | none
  | ui
  | quit
  | tick
  | loadEmails (page : Nat) (isLoadMore : Bool)
  | loadBody (uid : Nat)
  | delete (uid : Nat)
  deriving DecidableEq, Repr

/-- The key presses distinguished by `App.Update` (`left` also stands for
`h`, `right` for `l`, and `other` for any key none of the handlers match). -/
inductive Key
  | up
  | down
  | left
  | right
  | enter
  | esc
  | backspace
  | d
  | r
  | q
  | ctrlC
  | other
  deriving DecidableEq, Repr

/-- The messages consumed by `App.Update` (read.go 114–128, 411). -/
inductive Msg
  | windowSize
  | emailsLoaded (emails : List Email) (totalMessages : Nat) (isLoadMore : Bool)
  | emailBodyLoaded (uid : Nat) (body : Email)
  | emailDeleted (uid : Nat) (success : Bool) (message : String)
  | clearSuccess
  | error (text : String)
  | key (k : Key)
  deriving DecidableEq, Repr

/-- The `App` struct (read.go 80–104), restricted to the state the claims
are about. `err = none` models the `nil` error. -/
structure App where
  emails : List Email := []
  ready : Bool := false
  loading : Bool := false
  loadingMore : Bool := false
  err : Option String := none
  state : AppState := AppState.listView
  totalMessages : Nat := 0
  emailsPerPage : Nat := 50
  currentPage : Nat := 1
  hasMore : Bool := false
  showDeleteConfirm : Bool := false
  emailToDelete : Option Email := none
  deleteConfirmIndex : Nat := 0
  deletingEmail : Bool := false
  deleteSuccess : Bool := false
  deleteSuccessMessage : String := ""
  listIndex : Nat := 0
  deriving DecidableEq, Repr

/-- The state produced by `NewApp` (read.go 130–149). -/
def initialApp : App :=
  { loading := true, state := AppState.listView, emailsPerPage := 50,
    currentPage := 1 }

/-- Number of items held by the list widget: the emails plus, when
`hasMore`, the trailing `LoadMoreItem` (see `updateEmailList`, read.go
200–211). -/
def itemsCount (a : App) : Nat :=
  a.emails.length + (if a.hasMore then 1 else 0)

/-- The `emailsLoadedMsg` case (read.go 227–247): clear the loading flags,
take the reported total, replace or append the page, and recompute
`a.hasMore = uint32(loadedCount) < a.totalMessages` (read.go 239) — the
loaded count, a Go `int`, is truncated to `uint32` before the comparison,
hence the `% U32`. -/
def applyEmailsLoaded (a : App) (es : List Email) (total : Nat)
    (isLoadMore : Bool) : App :=
  let emails2 := if isLoadMore then a.emails ++ es else es
  { a with loading := false, loadingMore := false, totalMessages := total,
           emails := emails2,
           hasMore := decide (emails2.length % U32 < total) }

/-- Overwrite only the body-related fields of `e` with those of `b`
(the four assignments of read.go 252–255). -/
def setBodyFields (e b : Email) : Email :=
  { e with body := b.body, htmlBody := b.htmlBody, textBody := b.textBody,
           contentType := b.contentType }

/-- The `for … break` loop of read.go 250–258: patch the first email whose
uid matches. -/
def updateFirstByUid : List Email → Nat → Email → List Email
  | [], _, _ => []
  | e :: rest, uid, b =>
    if e.uid = uid then setBodyFields e b :: rest
    else e :: updateFirstByUid rest uid b

/-- The `emailBodyLoadedMsg` case (read.go 249–265); the viewport re-render
has no effect on the modelled state. -/
def applyEmailBodyLoaded (a : App) (uid : Nat) (b : Email) : App :=
  { a with emails := updateFirstByUid a.emails uid b }

/-- The `for … break` removal loop of read.go 273–278: drop the first email
whose uid matches. -/
def removeFirstByUid : List Email → Nat → List Email
  | [], _ => []
  | e :: rest, uid =>
    if e.uid = uid then rest else e :: removeFirstByUid rest uid

/-- Go `uint32` decrement (`a.totalMessages--`, read.go 281). -/
def dec32 (t : Nat) : Nat := (t + U32 - 1) % U32

/-- The `emailDeletedMsg` case (read.go 267–296). The `deleteConfirmIndex`
reset is performed by the `deleteEmail` task (read.go 191) just before it
emits the message; it is folded into the message application here. On
success a `tea.Tick` command is returned; on failure the error banner is
set and control falls through to the widgets. -/
def applyEmailDeleted (a : App) (uid : Nat) (success : Bool)
    (message : String) : App × Cmd :=
  let a1 := { a with deletingEmail := false, showDeleteConfirm := false,
                     state := AppState.listView, deleteConfirmIndex := 0 }
  if success then
    ({ a1 with emails := removeFirstByUid a1.emails uid,
               totalMessages := dec32 a1.totalMessages,
               deleteSuccess := true, deleteSuccessMessage := message },
     Cmd.tick)
  else
    ({ a1 with err := some ("failed to delete email: " ++ message) }, Cmd.ui)

/-- Reset to the list view, dropping the deletion snapshot (read.go
322–329). -/
def clearConfirm (a : App) : App :=
  { a with showDeleteConfirm := false, state := AppState.listView,
           emailToDelete := none }

/-- Key handling while `state == deleteConfirmView` (read.go 309–332):
left/right toggle the choice, enter either issues the delete task (choice
yes with a snapshot present) or cancels, esc/q cancel, anything else is
ignored; this branch never falls through to the widgets. -/
def handleConfirmKey (a : App) (k : Key) : App × Cmd :=
  match k with
  | Key.left =>
    ({ a with deleteConfirmIndex := if a.deleteConfirmIndex = 0 then 1 else 0 },
     Cmd.none)
  | Key.right =>
    ({ a with deleteConfirmIndex := if a.deleteConfirmIndex = 0 then 1 else 0 },
     Cmd.none)
  | Key.enter =>
    match a.emailToDelete with
    | some e =>
      if a.deleteConfirmIndex = 1 then
        ({ a with deletingEmail := true }, Cmd.delete e.uid)
      else (clearConfirm a, Cmd.none)
    | none => (clearConfirm a, Cmd.none)
  | Key.esc => (clearConfirm a, Cmd.none)
  | Key.q => (clearConfirm a, Cmd.none)
  | _ => (a, Cmd.none)

/-- The `"enter"` case outside the confirm view (read.go 341–365): in the
list view, a selected `LoadMoreItem` triggers one guarded load-more, a
selected email opens the detail view and fetches its body only when the
cached body is empty; otherwise the key falls through to the widgets. -/
def handleEnterKey (a : App) : App × Cmd :=
  if a.state = AppState.listView ∧ a.listIndex < itemsCount a then
    if h : a.listIndex < a.emails.length then
      if (a.emails.get ⟨a.listIndex, h⟩).body = "" then
        ({ a with state := AppState.emailView },
         Cmd.loadBody (a.emails.get ⟨a.listIndex, h⟩).uid)
      else ({ a with state := AppState.emailView }, Cmd.ui)
    else
      if a.loadingMore then (a, Cmd.none)
      else
        ({ a with loadingMore := true, currentPage := a.currentPage + 1 },
         Cmd.loadEmails (a.currentPage + 1) true)
  else (a, Cmd.ui)

/-- The `"esc", "backspace"` case (read.go 367–370). -/
def handleEscKey (a : App) : App × Cmd :=
  if a.state = AppState.emailView then
    ({ a with state := AppState.listView }, Cmd.ui)
  else (a, Cmd.ui)

/-- The `"d"` case (read.go 372–390): with a non-empty index and the cursor
on an actual email (in either the list or the detail view), snapshot it and
enter the confirmation view; otherwise nothing happens. -/
def deleteTarget (a : App) : Option Email :=
  if a.state = AppState.emailView ∧ a.listIndex < a.emails.length then
    a.emails.get? a.listIndex
  else if a.state = AppState.listView ∧ a.listIndex < a.emails.length then
    a.emails.get? a.listIndex
  else none

def handleDKey (a : App) : App × Cmd :=
  if (a.state = AppState.listView ∨ a.state = AppState.emailView)
      ∧ a.emails ≠ [] then
    match deleteTarget a with
    | some e =>
      ({ a with emailToDelete := some e, showDeleteConfirm := true,
                state := AppState.deleteConfirmView }, Cmd.none)
    | none => (a, Cmd.ui)
  else (a, Cmd.ui)

/-- The `"r"` case (read.go 392–398). -/
def handleRKey (a : App) : App × Cmd :=
  if a.state = AppState.listView ∧ ¬ a.loading then
    ({ a with loading := true, currentPage := 1 }, Cmd.loadEmails 1 false)
  else (a, Cmd.ui)

/-- Cursor movement, performed inside `a.list.Update` (bubbles widget,
external): the cursor moves within the item collection. Only the fact that
no other `App` field changes matters to the claims. -/
def handleNavKey (a : App) (down : Bool) : App × Cmd :=
  if a.state = AppState.listView then
    ({ a with listIndex :=
        if down then min (a.listIndex + 1) (itemsCount a - 1)
        else a.listIndex - 1 }, Cmd.ui)
  else (a, Cmd.ui)

/-- The `tea.KeyMsg` case of `App.Update` (read.go 308–399). -/
def handleKey (a : App) (k : Key) : App × Cmd :=
  if a.state = AppState.deleteConfirmView then handleConfirmKey a k
  else
    match k with
    | Key.q => (a, Cmd.quit)
    | Key.ctrlC => (a, Cmd.quit)
    | Key.enter => handleEnterKey a
    | Key.esc => handleEscKey a
    | Key.backspace => handleEscKey a
    | Key.d => handleDKey a
    | Key.r => handleRKey a
    | Key.up => handleNavKey a false
    | Key.down => handleNavKey a true
    | _ => (a, Cmd.ui)

/-- The function `App.Update` (read.go 213–409) as a pure step function. Messages that
do not return early fall through to the embedded widgets, modelled as
`Cmd.ui` with no further change to the embedded fields. -/
def update (a : App) : Msg → App × Cmd
  | Msg.windowSize => ({ a with ready := true }, Cmd.ui)
  | Msg.emailsLoaded es total isLoadMore =>
    (applyEmailsLoaded a es total isLoadMore, Cmd.ui)
  | Msg.emailBodyLoaded uid b => (applyEmailBodyLoaded a uid b, Cmd.ui)
  | Msg.emailDeleted uid success message =>
    applyEmailDeleted a uid success message
  | Msg.clearSuccess =>
    ({ a with deleteSuccess := false, deleteSuccessMessage := "" }, Cmd.ui)
  | Msg.error text =>
    ({ a with err := some text, loading := false, loadingMore := false,
              deletingEmail := false }, Cmd.ui)
  | Msg.key k => handleKey a k

/-- States reachable from `NewApp`'s initial state by applying events. -/
inductive Reachable : App → Prop
  | init : Reachable initialApp
  | step (a : App) (m : Msg) : Reachable a → Reachable (update a m).1

/-- Whenever the view is the delete-confirmation dialog, the deletion
snapshot is present (so `renderDeleteConfirmation` never dereferences nil). -/
def InvSnapshot (a : App) : Prop :=
  a.state = AppState.deleteConfirmView → a.emailToDelete ≠ none

/-! ## Concrete sample inputs used by the witness theorems -/

/-- An oracle on which every IMAP operation succeeds. -/
def clientAllOk : ImapClient :=
  { selectErr := fun _ => none, uidMoveErr := fun _ _ => none,
    uidStoreErr := fun _ => none, expungeErr := none }

/-- An oracle on which no trash folder exists but the fallback succeeds. -/
def clientNoTrash : ImapClient :=
  { selectErr := fun s => if s = "INBOX" then none else some "no such mailbox",
    uidMoveErr := fun _ _ => some "unavailable",
    uidStoreErr := fun _ => none, expungeErr := none }

/-- The spec's multipart example: one `text/plain` part "Hello" and one
`text/html` part `<p>Hello</p>`. -/
def demoParts : List MimePart :=
  [{ mediaType := "text/plain", body := "Hello" },
   { mediaType := "text/html", body := "<p>Hello</p>" }]

/-- A header-only email with uid 7 and no cached body. -/
def emailSeven : Email :=
  { uid := 7, subject := "seven", fromAddr := "a@x", toAddr := "b@x",
    date := 70 }

/-- A header-only email with uid 9 and a cached body. -/
def emailNine : Email :=
  { uid := 9, subject := "nine", fromAddr := "c@x", toAddr := "d@x",
    date := 90, body := "cached", textBody := "cached",
    contentType := "text/plain" }

/-- A list state holding the two sample emails (total 5, so more remain). -/
def appTwoEmails : App :=
  { emails := [emailSeven, emailNine], ready := true,
    state := AppState.listView, totalMessages := 5,
    hasMore := decide ((2:Nat) < 5) }

/-- A delete-confirmation state targeting `emailSeven` with choice = yes. -/
def appConfirmYes : App :=
  { appTwoEmails with state := AppState.deleteConfirmView,
                      showDeleteConfirm := true,
                      emailToDelete := some emailSeven,
                      deleteConfirmIndex := 1 }

/-- A delete-confirmation state targeting `emailSeven` with choice = no. -/
def appConfirmNo : App :=
  { appConfirmYes with deleteConfirmIndex := 0 }

/-- A parsed body payload as delivered by `emailBodyLoadedMsg`. -/
def bodySeven : Email :=
  { body := "hi", htmlBody := "", textBody := "hi",
    contentType := "text/plain" }

/-! ## C1 — pagination ranges -/

/-- C1: the claim fails on the code. Loading `T = 120, P = 50` page by page:
pages 1 and 2 match the claimed ranges 71–120 and 21–70 (and the
spec-modelled clamped formula), and "more" is still true after page 2
(100 < 120), so page 3 is requested; but on page 3 the code's
`start := end - uint32(perPage) + 1` underflows (`20 - 50 + 1` in `uint32`)
to `4294967267`, the `if start < 1` clamp cannot fire on the wrapped value,
and the computed range is `(4294967267, 20)` instead of the claimed 1–20 —
so the messages ranked 1–19 are never yielded as page 3. -/
theorem pagination_page3_start_underflows :
    fetchEmailsRange 120 1 50 = (71, 120)
    ∧ specPageRange 120 1 50 = (71, 120)
    ∧ fetchEmailsRange 120 2 50 = (21, 70)
    ∧ specPageRange 120 2 50 = (21, 70)
    ∧ specPageRange 120 3 50 = (1, 20)
    ∧ fetchEmailsRange 120 3 50 = (4294967267, 20)
    ∧ (fetchEmailsRange 120 3 50).1 ≠ (specPageRange 120 3 50).1
    ∧ ¬ (fetchEmailsRange 120 3 50).1 ≤ (fetchEmailsRange 120 3 50).2 := by
  decide

/-! ## C5 — decode failure fallback -/

/-- C5: whenever structure parsing of the raw blob fails, the body-fetch
decode step returns success carrying the raw bytes as the display body with
content type `text/plain` (all other body fields empty); and on every parse
outcome whatsoever, the decode step returns success — the decode error is
never propagated to the caller. -/
theorem decode_failure_falls_back_to_plain_text :
    ∀ raw : String,
      fetchEmailBodyParsedCore raw RawMessage.unparseable =
        Except.ok { body := raw, contentType := "text/plain" }
      ∧ ∀ m : RawMessage, ∃ e : Email,
          fetchEmailBodyParsedCore raw m = Except.ok e := by
  intro raw
  refine ⟨rfl, ?_⟩
  intro m
  cases m with
  | unparseable => exact ⟨_, rfl⟩
  | parsed mt parts whole => exact ⟨_, rfl⟩

/-! ## C6 — trash/delete pipeline -/

theorem tryMoveToFolders_eq_find (c : ImapClient) (uid : Nat) :
    ∀ fs : List String,
      tryMoveToFolders c uid fs = fs.find? (fun f => moveAttemptOk c uid f) := by
  intro fs
  induction fs with
  | nil => rfl
  | cons f rest ih =>
    rw [List.find?_cons]
    unfold tryMoveToFolders
    cases hf : c.selectErr f with
    | some e =>
      have hp : moveAttemptOk c uid f = false := by simp [moveAttemptOk, hf]
      simp [hp, ih]
    | none =>
      cases hi : c.selectErr "INBOX" with
      | some e =>
        have hp : moveAttemptOk c uid f = false := by simp [moveAttemptOk, hi]
        simp [hp, ih]
      | none =>
        cases hm : c.uidMoveErr uid f with
        | some e =>
          have hp : moveAttemptOk c uid f = false := by
            simp [moveAttemptOk, hm]
          simp [hp, ih]
        | none =>
          have hp : moveAttemptOk c uid f = true := by
            simp [moveAttemptOk, hf, hi, hm]
          simp [hp]

/-- C6: `moveEmailToTrash` tries the candidate trash folders in the fixed
source order; an attempt on candidate `f` succeeds exactly when selecting
`f` (the existence check), re-selecting `INBOX`, and the uid move all
succeed, and the first such candidate short-circuits with
`(true, "Email moved to " ++ f)`; if no candidate succeeds the function
falls back to `fallbackFlagExpunge` (re-select INBOX, flag by uid, expunge),
whose outcome is success with "Email deleted permanently" exactly when all
three fallback steps succeed, and a `(success, message)` failure pair at
the first failing step otherwise. -/
theorem moveEmailToTrash_priority_and_fallback :
    ∀ (c : ImapClient) (uid : Nat),
      (∀ f : String,
        trashFolders.find? (fun g => moveAttemptOk c uid g) = some f →
          moveEmailToTrash c uid = (true, "Email moved to " ++ f))
      ∧ (trashFolders.find? (fun g => moveAttemptOk c uid g) = none →
          moveEmailToTrash c uid = fallbackFlagExpunge c uid)
      ∧ ((fallbackFlagExpunge c uid).1 = true ↔
          c.selectErr "INBOX" = none ∧ c.uidStoreErr uid = none
            ∧ c.expungeErr = none)
      ∧ ((fallbackFlagExpunge c uid).1 = true →
          (fallbackFlagExpunge c uid).2 = "Email deleted permanently") := by
  intro c uid
  refine ⟨?_, ?_, ?_, ?_⟩
  · intro f hf
    unfold moveEmailToTrash
    rw [tryMoveToFolders_eq_find, hf]
  · intro hf
    unfold moveEmailToTrash
    rw [tryMoveToFolders_eq_find, hf]
  · unfold fallbackFlagExpunge
    cases hi : c.selectErr "INBOX" with
    | some e => simp [hi]
    | none =>
      cases hs : c.uidStoreErr uid with
      | some e => simp [hs]
      | none =>
        cases he : c.expungeErr with
        | some e => simp [he]
        | none => simp
  · unfold fallbackFlagExpunge
    cases hi : c.selectErr "INBOX" with
    | some e => simp
    | none =>
      cases hs : c.uidStoreErr uid with
      | some e => simp
      | none =>
        cases he : c.expungeErr with
        | some e => simp
        | none => simp

theorem moveEmailToTrash_priority_and_fallback_witness :
    moveEmailToTrash clientAllOk 5 = (true, "Email moved to Trash")
    ∧ moveEmailToTrash clientNoTrash 5 = (true, "Email deleted permanently") := by
  constructor
  · exact (moveEmailToTrash_priority_and_fallback clientAllOk 5).1 "Trash"
      (by decide)
  · have h := (moveEmailToTrash_priority_and_fallback clientNoTrash 5).2.1
      (by decide)
    rw [h]
    decide

/-! ## C4 — MIME classification and merge policy -/

theorem classify_foldl_contentType (parts : List MimePart) :
    ∀ acc : Email, (parts.foldl classifyPart acc).contentType = acc.contentType := by
  induction parts with
  | nil => intro acc; rfl
  | cons p ps ih =>
    intro acc
    rw [List.foldl_cons, ih]
    unfold classifyPart
    split
    · rfl
    · split <;> rfl

theorem classify_foldl_body (parts : List MimePart) :
    ∀ acc : Email, (parts.foldl classifyPart acc).body = acc.body := by
  induction parts with
  | nil => intro acc; rfl
  | cons p ps ih =>
    intro acc
    rw [List.foldl_cons, ih]
    unfold classifyPart
    split
    · rfl
    · split <;> rfl

theorem lastBodyMatching_cons (pred : MimePart → Bool) (p : MimePart)
    (ps : List MimePart) :
    lastBodyMatching pred (p :: ps) =
      match lastBodyMatching pred ps with
      | some b => some b
      | none => if pred p then some p.body else none := rfl

theorem classify_foldl_htmlBody (parts : List MimePart) :
    ∀ acc : Email,
      (parts.foldl classifyPart acc).htmlBody =
        (lastBodyMatching partKindHtml parts).getD acc.htmlBody := by
  induction parts with
  | nil => intro acc; rfl
  | cons p ps ih =>
    intro acc
    rw [List.foldl_cons, ih, lastBodyMatching_cons]
    cases h : lastBodyMatching partKindHtml ps with
    | some b => simp
    | none =>
      by_cases hp : goHasPrefix p.mediaType "text/html"
      · simp [partKindHtml, hp, classifyPart]
      · by_cases hq : goHasPrefix p.mediaType "text/plain"
        · simp [partKindHtml, hp, hq, classifyPart]
        · simp [partKindHtml, hp, hq, classifyPart]

theorem classify_foldl_textBody (parts : List MimePart) :
    ∀ acc : Email,
      (parts.foldl classifyPart acc).textBody =
        (lastBodyMatching partKindPlain parts).getD acc.textBody := by
  induction parts with
  | nil => intro acc; rfl
  | cons p ps ih =>
    intro acc
    rw [List.foldl_cons, ih, lastBodyMatching_cons]
    cases h : lastBodyMatching partKindPlain ps with
    | some b => simp
    | none =>
      by_cases hp : goHasPrefix p.mediaType "text/html"
      · simp [partKindPlain, hp, classifyPart]
      · by_cases hq : goHasPrefix p.mediaType "text/plain"
        · simp [partKindPlain, hp, hq, classifyPart]
        · simp [partKindPlain, hp, hq, classifyPart]

theorem mergeBody_textBody (e : Email) : (mergeBody e).textBody = e.textBody := by
  unfold mergeBody
  split
  · rfl
  · split <;> rfl

theorem mergeBody_htmlBody (e : Email) : (mergeBody e).htmlBody = e.htmlBody := by
  unfold mergeBody
  split
  · rfl
  · split <;> rfl

theorem mergeBody_contentType (e : Email) :
    (mergeBody e).contentType = e.contentType := by
  unfold mergeBody
  split
  · rfl
  · split <;> rfl

theorem mergeBody_body (e : Email) :
    (mergeBody e).body =
      (if e.textBody ≠ "" then e.textBody
       else if e.htmlBody ≠ "" then e.htmlBody else e.body) := by
  unfold mergeBody
  split
  · next ht => simp [ht]
  · next ht =>
    split
    · next hh => simp [ht, hh]
    · next hh => simp [ht, hh]

/-- C4: the decoder's classification. The declared content type is kept
(with the `"text/plain"` fallback when `mime.ParseMediaType` failed). When
it names a multipart container, each part is classified by its own declared
type and the last part of each kind wins — the HTML slot holds exactly the
body of the last `text/html` part (empty if none), the plain slot exactly
the body of the last `text/plain` part; parts are never concatenated. When
it is not multipart, the whole body goes into the slot of the single
declared type (HTML for `text/html`, plain otherwise) and the other slot is
empty. In every case the merged display body is the plain text if
non-empty, else the HTML if non-empty, else empty. -/
theorem parseEmailBody_classifies_and_merges :
    ∀ (mt : Option String) (parts : List MimePart) (whole : String),
      (parseEmailBody mt parts whole).contentType = mt.getD "text/plain"
      ∧ (goHasPrefix (mt.getD "text/plain") "multipart/" = true →
          (parseEmailBody mt parts whole).htmlBody =
            (lastBodyMatching partKindHtml parts).getD ""
          ∧ (parseEmailBody mt parts whole).textBody =
            (lastBodyMatching partKindPlain parts).getD "")
      ∧ (goHasPrefix (mt.getD "text/plain") "multipart/" = false →
          (goHasPrefix (mt.getD "text/plain") "text/html" = true →
            (parseEmailBody mt parts whole).htmlBody = whole
            ∧ (parseEmailBody mt parts whole).textBody = "")
          ∧ (goHasPrefix (mt.getD "text/plain") "text/html" = false →
            (parseEmailBody mt parts whole).textBody = whole
            ∧ (parseEmailBody mt parts whole).htmlBody = ""))
      ∧ (parseEmailBody mt parts whole).body =
          (if (parseEmailBody mt parts whole).textBody ≠ "" then
            (parseEmailBody mt parts whole).textBody
           else if (parseEmailBody mt parts whole).htmlBody ≠ "" then
            (parseEmailBody mt parts whole).htmlBody
           else "") := by
  intro mt parts whole
  refine ⟨?_, ?_, ?_, ?_⟩
  · unfold parseEmailBody
    by_cases hm : goHasPrefix (mt.getD "text/plain") "multipart/"
    · simp only [hm, if_true]
      rw [mergeBody_contentType, classify_foldl_contentType]
    · by_cases hh : goHasPrefix (mt.getD "text/plain") "text/html"
      · simp only [hm, hh, Bool.false_eq_true, if_false, if_true]
        rw [mergeBody_contentType]
      · simp only [hm, hh, Bool.false_eq_true, if_false]
        rw [mergeBody_contentType]
  · intro hm
    unfold parseEmailBody
    simp only [hm, if_true]
    constructor
    · rw [mergeBody_htmlBody, classify_foldl_htmlBody]
    · rw [mergeBody_textBody, classify_foldl_textBody]
  · intro hm
    constructor
    · intro hh
      unfold parseEmailBody
      simp only [hm, hh, Bool.false_eq_true, if_false, if_true]
      constructor
      · rw [mergeBody_htmlBody]
      · rw [mergeBody_textBody]
    · intro hh
      unfold parseEmailBody
      simp only [hm, hh, Bool.false_eq_true, if_false]
      constructor
      · rw [mergeBody_textBody]
      · rw [mergeBody_htmlBody]
  · unfold parseEmailBody
    by_cases hm : goHasPrefix (mt.getD "text/plain") "multipart/"
    · simp only [hm, if_true]
      rw [mergeBody_body, mergeBody_textBody, mergeBody_htmlBody,
        classify_foldl_body]
    · by_cases hh : goHasPrefix (mt.getD "text/plain") "text/html"
      · simp only [hm, hh, Bool.false_eq_true, if_false, if_true]
        rw [mergeBody_body, mergeBody_textBody, mergeBody_htmlBody]
      · simp only [hm, hh, Bool.false_eq_true, if_false]
        rw [mergeBody_body, mergeBody_textBody, mergeBody_htmlBody]

theorem parseEmailBody_classifies_and_merges_witness :
    (parseEmailBody (some "multipart/mixed") demoParts "").htmlBody =
      (lastBodyMatching partKindHtml demoParts).getD ""
    ∧ (parseEmailBody (some "multipart/mixed") demoParts "").textBody =
      (lastBodyMatching partKindPlain demoParts).getD ""
    ∧ (parseEmailBody (some "multipart/mixed") demoParts "").textBody = "Hello"
    ∧ (parseEmailBody (some "multipart/mixed") demoParts "").htmlBody =
      "<p>Hello</p>"
    ∧ (parseEmailBody (some "multipart/mixed") demoParts "").body = "Hello"
    ∧ (parseEmailBody (some "text/html") [] "<b>Hi</b>").htmlBody = "<b>Hi</b>"
    ∧ (parseEmailBody (some "text/html") [] "<b>Hi</b>").textBody = ""
    ∧ (parseEmailBody (some "text/html") [] "<b>Hi</b>").body = "<b>Hi</b>" := by
  have h := (parseEmailBody_classifies_and_merges (some "multipart/mixed")
    demoParts "").2.1 (by decide)
  have h2 := ((parseEmailBody_classifies_and_merges (some "text/html")
    [] "<b>Hi</b>").2.2.1 (by decide)).1 (by decide)
  refine ⟨h.1, h.2, by decide, by decide, by decide, h2.1, h2.2, by decide⟩

/-! ## List helpers for the delete / body-merge handlers -/

theorem filter_ne_self_of_not_mem (uid : Nat) :
    ∀ l : List Email, uid ∉ l.map Email.uid →
      l.filter (fun e => e.uid != uid) = l := by
  intro l
  induction l with
  | nil => intro _; rfl
  | cons e rest ih =>
    intro h
    rw [List.map_cons, List.mem_cons] at h
    push_neg at h
    rw [List.filter_cons]
    have he : (e.uid != uid) = true := by
      simp only [bne_iff_ne, ne_eq]
      exact fun hc => h.1 hc.symm
    rw [if_pos he, ih h.2]

theorem removeFirstByUid_eq_filter (uid : Nat) :
    ∀ l : List Email, (l.map Email.uid).Nodup →
      uid ∈ l.map Email.uid →
      removeFirstByUid l uid = l.filter (fun e => e.uid != uid) := by
  intro l
  induction l with
  | nil => intro _ hm; cases hm
  | cons e rest ih =>
    intro hn hm
    rw [List.map_cons, List.nodup_cons] at hn
    rw [List.filter_cons]
    unfold removeFirstByUid
    by_cases he : e.uid = uid
    · rw [if_pos he]
      have : (e.uid != uid) = false := by simp [he]
      rw [this, if_neg (by simp)]
      rw [← he] at hm ⊢
      exact (filter_ne_self_of_not_mem e.uid rest hn.1).symm
    · rw [if_neg he]
      have ht : (e.uid != uid) = true := by simp [he]
      rw [ht, if_pos rfl]
      rw [List.map_cons, List.mem_cons] at hm
      have hm2 : uid ∈ rest.map Email.uid := by
        cases hm with
        | inl h => exact absurd h.symm he
        | inr h => exact h
      rw [ih hn.2 hm2]

theorem removeFirstByUid_length (uid : Nat) :
    ∀ l : List Email, uid ∈ l.map Email.uid →
      (removeFirstByUid l uid).length + 1 = l.length := by
  intro l
  induction l with
  | nil => intro hm; cases hm
  | cons e rest ih =>
    intro hm
    unfold removeFirstByUid
    by_cases he : e.uid = uid
    · rw [if_pos he]; rfl
    · rw [if_neg he]
      rw [List.map_cons, List.mem_cons] at hm
      have hm2 : uid ∈ rest.map Email.uid := by
        cases hm with
        | inl h => exact absurd h.symm he
        | inr h => exact h
      rw [List.length_cons, List.length_cons, ← ih hm2]

theorem dec32_eq (t : Nat) (h1 : 1 ≤ t) (h2 : t < U32) : dec32 t = t - 1 := by
  unfold dec32 U32 at *
  omega

theorem map_if_id_of_not_mem (uid : Nat) (b : Email) :
    ∀ l : List Email, uid ∉ l.map Email.uid →
      l.map (fun e => if e.uid = uid then setBodyFields e b else e) = l := by
  intro l
  induction l with
  | nil => intro _; rfl
  | cons e rest ih =>
    intro h
    rw [List.map_cons, List.mem_cons] at h
    push_neg at h
    rw [List.map_cons]
    rw [if_neg (fun hc => h.1 hc.symm), ih h.2]

theorem updateFirstByUid_eq_map (uid : Nat) (b : Email) :
    ∀ l : List Email, (l.map Email.uid).Nodup →
      updateFirstByUid l uid b =
        l.map (fun e => if e.uid = uid then setBodyFields e b else e) := by
  intro l
  induction l with
  | nil => intro _; rfl
  | cons e rest ih =>
    intro hn
    rw [List.map_cons, List.nodup_cons] at hn
    rw [List.map_cons]
    unfold updateFirstByUid
    by_cases he : e.uid = uid
    · rw [if_pos he, if_pos he]
      rw [← he] at *
      rw [map_if_id_of_not_mem e.uid b rest hn.1]
    · rw [if_neg he, if_neg he, ih hn.2]

/-! ## C2 — delete completion mutates the index correctly -/

/-- C2: applying a successful delete completion for uid `u` (with distinct
uids, `u` present, and a total in the `uint32` range) removes exactly the
message whose uid is `u` — the new index is the old one with precisely that
message filtered out — shrinking the index by one and decrementing the
total by exactly one; applying a failed delete completion leaves the index
and the total unchanged, surfaces a non-nil error built from the failure
message, and reverts the view state to the list. -/
theorem emailDeleted_mutates_index_correctly :
    ∀ (a : App) (uid : Nat) (m : String),
      ((a.emails.map Email.uid).Nodup → uid ∈ a.emails.map Email.uid →
        1 ≤ a.totalMessages → a.totalMessages < U32 →
          (update a (Msg.emailDeleted uid true m)).1.emails =
            a.emails.filter (fun e => e.uid != uid)
          ∧ (update a (Msg.emailDeleted uid true m)).1.emails.length + 1 =
            a.emails.length
          ∧ (update a (Msg.emailDeleted uid true m)).1.totalMessages + 1 =
            a.totalMessages)
      ∧ ((update a (Msg.emailDeleted uid false m)).1.emails = a.emails
        ∧ (update a (Msg.emailDeleted uid false m)).1.totalMessages =
          a.totalMessages
        ∧ (update a (Msg.emailDeleted uid false m)).1.err =
          some ("failed to delete email: " ++ m)
        ∧ (update a (Msg.emailDeleted uid false m)).1.state =
          AppState.listView) := by
  intro a uid m
  constructor
  · intro hn hm h1 h2
    refine ⟨?_, ?_, ?_⟩
    · show removeFirstByUid a.emails uid = _
      exact removeFirstByUid_eq_filter uid a.emails hn hm
    · show (removeFirstByUid a.emails uid).length + 1 = _
      exact removeFirstByUid_length uid a.emails hm
    · show dec32 a.totalMessages + 1 = a.totalMessages
      rw [dec32_eq a.totalMessages h1 h2]
      omega
  · exact ⟨rfl, rfl, rfl, rfl⟩

theorem emailDeleted_mutates_index_correctly_witness :
    (update appTwoEmails (Msg.emailDeleted 7 true "Email moved to Trash")).1.emails
      = appTwoEmails.emails.filter (fun e => e.uid != 7)
    ∧ (update appTwoEmails
        (Msg.emailDeleted 7 true "Email moved to Trash")).1.emails.length + 1
      = appTwoEmails.emails.length
    ∧ (update appTwoEmails
        (Msg.emailDeleted 7 true "Email moved to Trash")).1.totalMessages + 1
      = appTwoEmails.totalMessages := by
  exact (emailDeleted_mutates_index_correctly appTwoEmails 7
    "Email moved to Trash").1 (by decide) (by decide) (by decide) (by decide)

/-! ## C3 — the "more available" invariant -/

/-- C3: `hasMore` equals "loaded count < total" after every index
mutation. A page-load completion (append or replace) recomputes it as
`uint32(loadedCount) < total` (read.go 239), which equals the claimed
unbounded comparison whenever the resulting loaded count fits in `uint32`;
a successful delete completion does not recompute it but preserves it —
assuming it held before, the deleted uid is present among the (distinct)
loaded uids, and the total is in the `uint32` range, removing one message
and decrementing the total keeps the equality; a failed delete completion
changes neither the index, the total, nor the flag. -/
theorem hasMore_tracks_loaded_lt_total :
    ∀ (a : App) (es : List Email) (t uid : Nat) (more : Bool) (m : String),
      ((update a (Msg.emailsLoaded es t more)).1.emails.length < U32 →
        (update a (Msg.emailsLoaded es t more)).1.hasMore =
          decide ((update a (Msg.emailsLoaded es t more)).1.emails.length <
            (update a (Msg.emailsLoaded es t more)).1.totalMessages))
      ∧ (a.hasMore = decide (a.emails.length < a.totalMessages) →
          (a.emails.map Email.uid).Nodup → uid ∈ a.emails.map Email.uid →
          1 ≤ a.totalMessages → a.totalMessages < U32 →
          (update a (Msg.emailDeleted uid true m)).1.hasMore =
            decide ((update a (Msg.emailDeleted uid true m)).1.emails.length <
              (update a (Msg.emailDeleted uid true m)).1.totalMessages))
      ∧ (a.hasMore = decide (a.emails.length < a.totalMessages) →
          (update a (Msg.emailDeleted uid false m)).1.hasMore =
            decide ((update a (Msg.emailDeleted uid false m)).1.emails.length <
              (update a (Msg.emailDeleted uid false m)).1.totalMessages)) := by
  intro a es t uid more m
  refine ⟨?_, ?_, ?_⟩
  · intro hlen
    show decide ((update a (Msg.emailsLoaded es t more)).1.emails.length % U32 <
        (update a (Msg.emailsLoaded es t more)).1.totalMessages) = _
    rw [Nat.mod_eq_of_lt hlen]
  · intro hinv hn hm h1 h2
    show a.hasMore = decide ((removeFirstByUid a.emails uid).length <
      dec32 a.totalMessages)
    rw [hinv, dec32_eq a.totalMessages h1 h2]
    have hlen := removeFirstByUid_length uid a.emails hm
    rw [decide_eq_decide]
    omega
  · intro hinv
    exact hinv

theorem hasMore_tracks_loaded_lt_total_witness :
    ((update initialApp (Msg.emailsLoaded [emailSeven, emailNine] 5 false)).1.hasMore
      = decide ((update initialApp
          (Msg.emailsLoaded [emailSeven, emailNine] 5 false)).1.emails.length <
        (update initialApp
          (Msg.emailsLoaded [emailSeven, emailNine] 5 false)).1.totalMessages))
    ∧ (update appTwoEmails (Msg.emailDeleted 7 true "ok")).1.hasMore =
      decide ((update appTwoEmails
        (Msg.emailDeleted 7 true "ok")).1.emails.length <
        (update appTwoEmails (Msg.emailDeleted 7 true "ok")).1.totalMessages) := by
  constructor
  · exact (hasMore_tracks_loaded_lt_total initialApp [emailSeven, emailNine]
      5 0 false "").1 (by decide)
  · exact (hasMore_tracks_loaded_lt_total appTwoEmails [] 0 7 false "ok").2.1
      (by decide) (by decide) (by decide) (by decide) (by decide)

/-! ## C8 — body-load completion is a frame-preserving merge -/

/-- C8: applying a body-loaded completion for uid `u` (with distinct loaded
uids) rewrites the index pointwise — the unique message whose uid is `u`
gets exactly the body-related fields (merged body, HTML part, plain part,
content type) of the payload while its uid, subject, sender, recipient,
date and seen flag are untouched, and every message with a different uid is
left entirely unchanged; no other field of the application state changes. -/
theorem emailBodyLoaded_updates_only_body_fields :
    ∀ (a : App) (uid : Nat) (b : Email),
      (a.emails.map Email.uid).Nodup →
        (update a (Msg.emailBodyLoaded uid b)).1.emails =
          a.emails.map (fun e => if e.uid = uid then setBodyFields e b else e)
        ∧ (∀ e : Email,
            (setBodyFields e b).uid = e.uid
            ∧ (setBodyFields e b).subject = e.subject
            ∧ (setBodyFields e b).fromAddr = e.fromAddr
            ∧ (setBodyFields e b).toAddr = e.toAddr
            ∧ (setBodyFields e b).date = e.date
            ∧ (setBodyFields e b).seen = e.seen
            ∧ (setBodyFields e b).body = b.body
            ∧ (setBodyFields e b).htmlBody = b.htmlBody
            ∧ (setBodyFields e b).textBody = b.textBody
            ∧ (setBodyFields e b).contentType = b.contentType)
        ∧ (update a (Msg.emailBodyLoaded uid b)).1 =
            { a with emails := (update a (Msg.emailBodyLoaded uid b)).1.emails } := by
  intro a uid b hn
  refine ⟨?_, ?_, rfl⟩
  · show updateFirstByUid a.emails uid b = _
    exact updateFirstByUid_eq_map uid b a.emails hn
  · intro e
    exact ⟨rfl, rfl, rfl, rfl, rfl, rfl, rfl, rfl, rfl, rfl⟩

theorem emailBodyLoaded_updates_only_body_fields_witness :
    (update appTwoEmails (Msg.emailBodyLoaded 7 bodySeven)).1.emails =
      appTwoEmails.emails.map
        (fun e => if e.uid = 7 then setBodyFields e bodySeven else e) := by
  exact ((emailBodyLoaded_updates_only_body_fields appTwoEmails 7 bodySeven)
    (by decide)).1

/-! ## C7 — body fetch is issued only when the body is absent -/

/-- C7: pressing enter in the list view with the cursor on message `i`
issues no body-fetch command when that message's body is already cached
(non-empty), and issues exactly the one command `loadBody uid` for that
message when the body is absent. -/
theorem enter_fetches_body_only_when_absent :
    ∀ (a : App) (i : Nat) (h : i < a.emails.length),
      a.state = AppState.listView → a.listIndex = i →
        ((a.emails.get ⟨i, h⟩).body ≠ "" →
          ∀ u : Nat, (update a (Msg.key Key.enter)).2 ≠ Cmd.loadBody u)
        ∧ ((a.emails.get ⟨i, h⟩).body = "" →
          (update a (Msg.key Key.enter)).2 =
            Cmd.loadBody (a.emails.get ⟨i, h⟩).uid) := by
  intro a i h hs hidx
  subst hidx
  have hns : ¬ a.state = AppState.deleteConfirmView := by
    rw [hs]; decide
  have hcount : a.listIndex < itemsCount a := by
    unfold itemsCount; omega
  constructor
  · intro hb u
    show (handleKey a Key.enter).2 ≠ Cmd.loadBody u
    unfold handleKey
    rw [if_neg hns]
    show (handleEnterKey a).2 ≠ Cmd.loadBody u
    unfold handleEnterKey
    rw [if_pos ⟨hs, hcount⟩, dif_pos h, if_neg hb]
    intro hc
    exact Cmd.noConfusion hc
  · intro hb
    show (handleKey a Key.enter).2 = _
    unfold handleKey
    rw [if_neg hns]
    show (handleEnterKey a).2 = _
    unfold handleEnterKey
    rw [if_pos ⟨hs, hcount⟩, dif_pos h, if_pos hb]

theorem enter_fetches_body_only_when_absent_witness :
    ((update appTwoEmails (Msg.key Key.enter)).2 =
      Cmd.loadBody (appTwoEmails.emails.get ⟨0, by decide⟩).uid)
    ∧ ∀ u : Nat,
        (update { appTwoEmails with listIndex := 1 } (Msg.key Key.enter)).2 ≠
          Cmd.loadBody u := by
  constructor
  · exact (enter_fetches_body_only_when_absent appTwoEmails 0 (by decide)
      (by decide) (by decide)).2 (by decide)
  · exact (enter_fetches_body_only_when_absent
      { appTwoEmails with listIndex := 1 } 1 (by decide)
      (by decide) (by decide)).1 (by decide)

/-! ## C9 — the delete-confirmation dialog -/

theorem handleEnterKey_deletingEmail (a : App) :
    ((handleEnterKey a).1).deletingEmail = a.deletingEmail := by
  unfold handleEnterKey
  split
  · split
    · split <;> rfl
    · split <;> rfl
  · rfl

theorem handleEscKey_deletingEmail (a : App) :
    ((handleEscKey a).1).deletingEmail = a.deletingEmail := by
  unfold handleEscKey
  split <;> rfl

theorem handleDKey_deletingEmail (a : App) :
    ((handleDKey a).1).deletingEmail = a.deletingEmail := by
  unfold handleDKey
  split
  · cases deleteTarget a <;> rfl
  · rfl

theorem handleRKey_deletingEmail (a : App) :
    ((handleRKey a).1).deletingEmail = a.deletingEmail := by
  unfold handleRKey
  split <;> rfl

theorem handleNavKey_deletingEmail (a : App) (down : Bool) :
    ((handleNavKey a down).1).deletingEmail = a.deletingEmail := by
  unfold handleNavKey
  split <;> rfl

theorem handleConfirmKey_deletingEmail (a : App) (k : Key) :
    ((handleConfirmKey a k).1).deletingEmail = a.deletingEmail
    ∨ ((handleConfirmKey a k).1).deletingEmail = true := by
  unfold handleConfirmKey
  cases k with
  | left => left; rfl
  | right => left; rfl
  | enter =>
    cases a.emailToDelete with
    | some e =>
      dsimp only
      by_cases h1 : a.deleteConfirmIndex = 1
      · rw [if_pos h1]; right; rfl
      · rw [if_neg h1]; left; rfl
    | none => left; rfl
  | esc => left; rfl
  | q => left; rfl
  | up => left; rfl
  | down => left; rfl
  | backspace => left; rfl
  | d => left; rfl
  | r => left; rfl
  | ctrlC => left; rfl
  | other => left; rfl

/-- C9: in the delete-confirmation view, pressing enter with choice = no
returns to the list view with the snapshot cleared and issues no command at
all (in particular no delete task); pressing enter with choice = yes and a
snapshot present keeps the confirmation view, sets the deleting flag,
leaves the snapshot in place, and issues exactly the one command
`delete uid` for the snapshotted message. The deleting flag persists across
every key press and is cleared exactly by the delete-completion event. -/
theorem confirm_dialog_state_machine :
    ∀ (a : App) (e : Email) (k : Key) (uid : Nat) (s : Bool) (m : String),
      (a.state = AppState.deleteConfirmView → a.deleteConfirmIndex = 0 →
        (update a (Msg.key Key.enter)).1.state = AppState.listView
        ∧ (update a (Msg.key Key.enter)).1.emailToDelete = none
        ∧ (update a (Msg.key Key.enter)).2 = Cmd.none)
      ∧ (a.state = AppState.deleteConfirmView → a.deleteConfirmIndex = 1 →
          a.emailToDelete = some e →
        (update a (Msg.key Key.enter)).1.state = AppState.deleteConfirmView
        ∧ (update a (Msg.key Key.enter)).1.deletingEmail = true
        ∧ (update a (Msg.key Key.enter)).1.emailToDelete = some e
        ∧ (update a (Msg.key Key.enter)).2 = Cmd.delete e.uid)
      ∧ (a.deletingEmail = true →
          (update a (Msg.key k)).1.deletingEmail = true)
      ∧ (update a (Msg.emailDeleted uid s m)).1.deletingEmail = false := by
  intro a e k uid s m
  refine ⟨?_, ?_, ?_, ?_⟩
  · intro hs h0
    have hupd : update a (Msg.key Key.enter) = (clearConfirm a, Cmd.none) := by
      show handleKey a Key.enter = _
      unfold handleKey
      rw [if_pos hs]
      unfold handleConfirmKey
      dsimp only
      cases he : a.emailToDelete with
      | some e2 =>
        dsimp only
        rw [if_neg (by rw [h0]; decide)]
      | none => rfl
    rw [hupd]
    exact ⟨rfl, rfl, rfl⟩
  · intro hs h1 hsnap
    have hupd : update a (Msg.key Key.enter) =
        ({ a with deletingEmail := true }, Cmd.delete e.uid) := by
      show handleKey a Key.enter = _
      unfold handleKey
      rw [if_pos hs]
      unfold handleConfirmKey
      dsimp only
      rw [hsnap]
      dsimp only
      rw [if_pos h1]
    rw [hupd]
    exact ⟨hs, rfl, hsnap, rfl⟩
  · intro hd
    show ((handleKey a k).1).deletingEmail = true
    unfold handleKey
    by_cases hs : a.state = AppState.deleteConfirmView
    · rw [if_pos hs]
      rcases handleConfirmKey_deletingEmail a k with h | h
      · rw [h]; exact hd
      · exact h
    · rw [if_neg hs]
      cases k with
      | q => exact hd
      | ctrlC => exact hd
      | enter => rw [handleEnterKey_deletingEmail]; exact hd
      | esc => rw [handleEscKey_deletingEmail]; exact hd
      | backspace => rw [handleEscKey_deletingEmail]; exact hd
      | d => rw [handleDKey_deletingEmail]; exact hd
      | r => rw [handleRKey_deletingEmail]; exact hd
      | up => rw [handleNavKey_deletingEmail]; exact hd
      | down => rw [handleNavKey_deletingEmail]; exact hd
      | left => exact hd
      | right => exact hd
      | other => exact hd
  · show ((applyEmailDeleted a uid s m).1).deletingEmail = false
    unfold applyEmailDeleted
    cases s with
    | true => rfl
    | false => rfl

theorem confirm_dialog_state_machine_witness :
    ((update appConfirmNo (Msg.key Key.enter)).1.state = AppState.listView
      ∧ (update appConfirmNo (Msg.key Key.enter)).1.emailToDelete = none
      ∧ (update appConfirmNo (Msg.key Key.enter)).2 = Cmd.none)
    ∧ ((update appConfirmYes (Msg.key Key.enter)).1.state =
        AppState.deleteConfirmView
      ∧ (update appConfirmYes (Msg.key Key.enter)).1.deletingEmail = true
      ∧ (update appConfirmYes (Msg.key Key.enter)).1.emailToDelete =
        some emailSeven
      ∧ (update appConfirmYes (Msg.key Key.enter)).2 =
        Cmd.delete emailSeven.uid) := by
  constructor
  · exact (confirm_dialog_state_machine appConfirmNo emailSeven Key.other
      0 true "").1 (by decide) (by decide)
  · exact (confirm_dialog_state_machine appConfirmYes emailSeven Key.other
      0 true "").2.1 (by decide) (by decide) (by decide)

/-! ## C10 — the confirmation view always has a snapshot -/

theorem handleEnterKey_state (a : App) :
    ((handleEnterKey a).1).state = AppState.emailView
    ∨ ((handleEnterKey a).1).state = a.state := by
  unfold handleEnterKey
  split
  · split
    · split
      · left; rfl
      · left; rfl
    · split
      · right; rfl
      · right; rfl
  · right; rfl

theorem handleEnterKey_emailToDelete (a : App) :
    ((handleEnterKey a).1).emailToDelete = a.emailToDelete := by
  unfold handleEnterKey
  split
  · split
    · split <;> rfl
    · split <;> rfl
  · rfl

theorem handleEscKey_state (a : App) :
    ((handleEscKey a).1).state = AppState.listView
    ∨ ((handleEscKey a).1).state = a.state := by
  unfold handleEscKey
  split
  · left; rfl
  · right; rfl

theorem handleEscKey_emailToDelete (a : App) :
    ((handleEscKey a).1).emailToDelete = a.emailToDelete := by
  unfold handleEscKey
  split <;> rfl

theorem handleRKey_state (a : App) :
    ((handleRKey a).1).state = a.state := by
  unfold handleRKey
  split <;> rfl

theorem handleRKey_emailToDelete (a : App) :
    ((handleRKey a).1).emailToDelete = a.emailToDelete := by
  unfold handleRKey
  split <;> rfl

theorem handleNavKey_state (a : App) (down : Bool) :
    ((handleNavKey a down).1).state = a.state := by
  unfold handleNavKey
  split <;> rfl

theorem handleNavKey_emailToDelete (a : App) (down : Bool) :
    ((handleNavKey a down).1).emailToDelete = a.emailToDelete := by
  unfold handleNavKey
  split <;> rfl

theorem handleDKey_invSnapshot (a : App) (hInv : InvSnapshot a) :
    InvSnapshot (handleDKey a).1 := by
  unfold handleDKey
  split
  · cases ht : deleteTarget a with
    | some e => intro _; simp
    | none => exact hInv
  · exact hInv

theorem handleConfirmKey_invSnapshot (a : App) (k : Key)
    (hInv : InvSnapshot a) (hs : a.state = AppState.deleteConfirmView) :
    InvSnapshot (handleConfirmKey a k).1 := by
  unfold handleConfirmKey
  cases k with
  | left => intro _; exact hInv hs
  | right => intro _; exact hInv hs
  | enter =>
    cases he : a.emailToDelete with
    | some e =>
      dsimp only
      by_cases h1 : a.deleteConfirmIndex = 1
      · rw [if_pos h1]
        intro _
        simp
      · rw [if_neg h1]
        intro hc
        exact AppState.noConfusion hc
    | none =>
      intro hc
      exact AppState.noConfusion hc
  | esc => intro hc; exact AppState.noConfusion hc
  | q => intro hc; exact AppState.noConfusion hc
  | up => intro _; exact hInv hs
  | down => intro _; exact hInv hs
  | backspace => intro _; exact hInv hs
  | d => intro _; exact hInv hs
  | r => intro _; exact hInv hs
  | ctrlC => intro _; exact hInv hs
  | other => intro _; exact hInv hs

theorem update_preserves_invSnapshot (a : App) (m : Msg)
    (hInv : InvSnapshot a) : InvSnapshot (update a m).1 := by
  cases m with
  | windowSize => exact hInv
  | emailsLoaded es t more => exact hInv
  | emailBodyLoaded uid b => exact hInv
  | emailDeleted uid s msg =>
    show InvSnapshot (applyEmailDeleted a uid s msg).1
    unfold applyEmailDeleted
    cases s with
    | true => intro hc; exact AppState.noConfusion hc
    | false => intro hc; exact AppState.noConfusion hc
  | clearSuccess => exact hInv
  | error t => exact hInv
  | key k =>
    show InvSnapshot (handleKey a k).1
    unfold handleKey
    by_cases hs : a.state = AppState.deleteConfirmView
    · rw [if_pos hs]
      exact handleConfirmKey_invSnapshot a k hInv hs
    · rw [if_neg hs]
      cases k with
      | q => exact hInv
      | ctrlC => exact hInv
      | enter =>
        intro hc
        rw [handleEnterKey_emailToDelete]
        rcases handleEnterKey_state a with h | h
        · rw [h] at hc; exact absurd hc (by decide)
        · rw [h] at hc; exact hInv hc
      | esc =>
        intro hc
        rw [handleEscKey_emailToDelete]
        rcases handleEscKey_state a with h | h
        · rw [h] at hc; exact absurd hc (by decide)
        · rw [h] at hc; exact hInv hc
      | backspace =>
        intro hc
        rw [handleEscKey_emailToDelete]
        rcases handleEscKey_state a with h | h
        · rw [h] at hc; exact absurd hc (by decide)
        · rw [h] at hc; exact hInv hc
      | d => exact handleDKey_invSnapshot a hInv
      | r =>
        intro hc
        rw [handleRKey_emailToDelete]
        rw [handleRKey_state] at hc
        exact hInv hc
      | up =>
        intro hc
        rw [handleNavKey_emailToDelete]
        rw [handleNavKey_state] at hc
        exact hInv hc
      | down =>
        intro hc
        rw [handleNavKey_emailToDelete]
        rw [handleNavKey_state] at hc
        exact hInv hc
      | left => exact hInv
      | right => exact hInv
      | other => exact hInv

theorem reachable_invSnapshot : ∀ a : App, Reachable a → InvSnapshot a := by
  intro a r
  induction r with
  | init => intro hc; exact AppState.noConfusion hc
  | step a2 m _ ih => exact update_preserves_invSnapshot a2 m ih

/-- C10: in every state reachable from the initial state, if the view is the
delete-confirmation dialog then the deletion snapshot is present. Moreover
pressing the delete key with an empty index, or in the list view with the
cursor on the load-more sentinel (index equal to the number of loaded
messages), leaves the state entirely unchanged — in particular it does not
enter the confirmation view and sets no snapshot. -/
theorem deleteConfirm_always_has_snapshot :
    ∀ a : App,
      (Reachable a → a.state = AppState.deleteConfirmView →
        a.emailToDelete ≠ none)
      ∧ (a.emails = [] → (update a (Msg.key Key.d)).1 = a)
      ∧ (a.state = AppState.listView → a.listIndex = a.emails.length →
          (update a (Msg.key Key.d)).1 = a) := by
  intro a
  refine ⟨?_, ?_, ?_⟩
  · intro r
    exact reachable_invSnapshot a r
  · intro hempty
    show (handleKey a Key.d).1 = a
    unfold handleKey
    by_cases hs : a.state = AppState.deleteConfirmView
    · rw [if_pos hs]; rfl
    · rw [if_neg hs]
      show (handleDKey a).1 = a
      unfold handleDKey
      rw [if_neg (fun hc => hc.2 hempty)]
  · intro hs hidx
    have hns : ¬ a.state = AppState.deleteConfirmView := by rw [hs]; decide
    show (handleKey a Key.d).1 = a
    unfold handleKey
    rw [if_neg hns]
    show (handleDKey a).1 = a
    unfold handleDKey
    by_cases hempty : a.emails = []
    · rw [if_neg (fun hc => hc.2 hempty)]
    · rw [if_pos ⟨Or.inl hs, hempty⟩]
      have hnv : ¬ (a.state = AppState.emailView ∧
          a.listIndex < a.emails.length) := by
        intro hc
        rw [hs] at hc
        exact absurd hc.1 (by decide)
      have hnl : ¬ (a.state = AppState.listView ∧
          a.listIndex < a.emails.length) := by
        intro hc
        rw [hidx] at hc
        exact Nat.lt_irrefl _ hc.2
      have htgt : deleteTarget a = none := by
        unfold deleteTarget
        rw [if_neg hnv, if_neg hnl]
      rw [htgt]

theorem deleteConfirm_always_has_snapshot_witness :
    ((update (update initialApp (Msg.emailsLoaded [emailSeven] 5 false)).1
      (Msg.key Key.d)).1).emailToDelete ≠ none := by
  exact (deleteConfirm_always_has_snapshot
    (update (update initialApp (Msg.emailsLoaded [emailSeven] 5 false)).1
      (Msg.key Key.d)).1).1
    (Reachable.step _ _ (Reachable.step _ _ Reachable.init))
    (by decide)

end Cleu
